import Mathlib

/-!
Verification of the requirements-evaluator backend.

This file embeds the backend's response-normalization logic
(src/backend/src/evaluator.js), its fixed-window rate limiter
(src/backend/src/rateLimit.js) and the Lambda request handler
(handler.js) as executable Lean definitions, and proves the
repository specification's testable properties about them.

Modelling conventions:
- JavaScript values reachable from `JSON.parse` are modelled by the
  inductive type `Json`; JS numbers are modelled as exact rationals
  (JSON numeric literals are finite decimals; IEEE-754 double rounding
  of extreme literals is outside the scope of every claim proved here).
- Fallible operations return `Option`; `try`/`catch` blocks become
  pattern matches on those options.
- Calls to external services (DynamoDB, Bedrock) are modelled by
  explicit parameters carrying the outcome of the call; an injected
  `Infra.fail` corresponds to the service throwing.
-/

namespace ReqEval

/-- JSON / JavaScript values as produced by `JSON.parse`. -/
inductive Json where
  | null
  | bool (b : Bool)
  | num (q : ℚ)
  | str (s : String)
  | arr (elems : List Json)
  | obj (fields : List (String × Json))
deriving Repr

/-! JSON text parsing, modelling the semantics of JavaScript's
`JSON.parse` (ECMA-404 grammar): a value optionally surrounded by
whitespace, with objects, arrays, strings with escapes, and decimal
numbers. -/

/-- JSON insignificant whitespace (space, tab, line feed, carriage return). -/
def isJsonWs (c : Char) : Bool :=
  c = ' ' || c = '\t' || c = '\n' || c = '\r'

/-- Drop leading JSON whitespace. -/
def skipWs : List Char → List Char
  | [] => []
  | c :: cs => if isJsonWs c then skipWs cs else c :: cs

/-- Value of a hexadecimal digit, if the character is one. -/
def hexVal? (c : Char) : Option Nat :=
  if '0' ≤ c ∧ c ≤ '9' then some (c.toNat - 48)
  else if 'a' ≤ c ∧ c ≤ 'f' then some (c.toNat - 87)
  else if 'A' ≤ c ∧ c ≤ 'F' then some (c.toNat - 55)
  else none

def isHighSurrogate (n : Nat) : Bool := 0xD800 ≤ n && n ≤ 0xDBFF

def isLowSurrogate (n : Nat) : Bool := 0xDC00 ≤ n && n ≤ 0xDFFF

/-- Body of a JSON string literal, after the opening quote; returns the
decoded string and the input remaining after the closing quote.
Adjacent `\uXXXX` escapes forming a surrogate pair are combined into
one code point, matching how a JS string's UTF-16 units denote text. -/
def parseJStringAux : List Char → List Char → Option (String × List Char)
  | acc, '"' :: rest => some (String.mk acc.reverse, rest)
  | acc, '\\' :: '"' :: rest => parseJStringAux ('"' :: acc) rest
  | acc, '\\' :: '\\' :: rest => parseJStringAux ('\\' :: acc) rest
  | acc, '\\' :: '/' :: rest => parseJStringAux ('/' :: acc) rest
  | acc, '\\' :: 'b' :: rest => parseJStringAux ('\x08' :: acc) rest
  | acc, '\\' :: 'f' :: rest => parseJStringAux ('\x0c' :: acc) rest
  | acc, '\\' :: 'n' :: rest => parseJStringAux ('\n' :: acc) rest
  | acc, '\\' :: 'r' :: rest => parseJStringAux ('\r' :: acc) rest
  | acc, '\\' :: 't' :: rest => parseJStringAux ('\t' :: acc) rest
  | acc, '\\' :: 'u' :: h1 :: h2 :: h3 :: h4 :: '\\' :: 'u' :: g1 :: g2 :: g3 :: g4 :: rest =>
    match hexVal? h1, hexVal? h2, hexVal? h3, hexVal? h4,
          hexVal? g1, hexVal? g2, hexVal? g3, hexVal? g4 with
    | some a, some b, some c, some d, some a2, some b2, some c2, some d2 =>
      let n := ((a * 16 + b) * 16 + c) * 16 + d
      let m := ((a2 * 16 + b2) * 16 + c2) * 16 + d2
      if isHighSurrogate n ∧ isLowSurrogate m then
        parseJStringAux
          (Char.ofNat (0x10000 + (n - 0xD800) * 0x400 + (m - 0xDC00)) :: acc) rest
      else
        parseJStringAux (Char.ofNat m :: Char.ofNat n :: acc) rest
    | _, _, _, _, _, _, _, _ => none
  | acc, '\\' :: 'u' :: h1 :: h2 :: h3 :: h4 :: rest =>
    match hexVal? h1, hexVal? h2, hexVal? h3, hexVal? h4 with
    | some a, some b, some c, some d =>
      parseJStringAux (Char.ofNat (((a * 16 + b) * 16 + c) * 16 + d) :: acc) rest
    | _, _, _, _ => none
  | _, '\\' :: _ => none
  | acc, c :: rest => if c.toNat < 0x20 then none else parseJStringAux (c :: acc) rest
  | _, [] => none

/-- Consume a maximal run of decimal digits, accumulating the value and
the number of digits consumed. -/
def parseDigitsAux : List Char → Nat → Nat → Nat × Nat × List Char
  | c :: cs, v, k =>
    if c.isDigit then parseDigitsAux cs (v * 10 + (c.toNat - 48)) (k + 1)
    else (v, k, c :: cs)
  | [], v, k => (v, k, [])

/-- Optional fraction part `.digits`: value, digit count, rest. -/
def parseFrac (cs : List Char) : Option (Nat × Nat × List Char) :=
  match cs with
  | '.' :: r =>
    match r with
    | c :: _ =>
      if c.isDigit then
        let d := parseDigitsAux r 0 0
        some (d.1, d.2.1, d.2.2)
      else none
    | [] => none
  | _ => some (0, 0, cs)

/-- Optional exponent part `(e|E)(+|-)?digits`: signed exponent, rest. -/
def parseExp (cs : List Char) : Option (Int × List Char) :=
  match cs with
  | c :: r =>
    if c = 'e' ∨ c = 'E' then
      let signed : Bool × List Char :=
        match r with
        | '+' :: r2 => (false, r2)
        | '-' :: r2 => (true, r2)
        | _ => (false, r)
      match signed.2 with
      | c2 :: _ =>
        if c2.isDigit then
          let d := parseDigitsAux signed.2 0 0
          some (if signed.1 then -(d.1 : Int) else (d.1 : Int), d.2.2)
        else none
      | [] => none
    else some (0, c :: r)
  | [] => some (0, [])

/-- JSON number: `-? int frac? exp?`, with the ECMA-404 restriction that
the integer part is `0` or starts with a nonzero digit. The exact
rational value is returned. -/
def parseNumber (cs : List Char) : Option (ℚ × List Char) := do
  let signRes : Bool × List Char :=
    match cs with
    | '-' :: r => (true, r)
    | _ => (false, cs)
  let intRes : Option (Nat × List Char) :=
    match signRes.2 with
    | '0' :: r => some (0, r)
    | c :: _ =>
      if '1' ≤ c ∧ c ≤ '9' then
        let d := parseDigitsAux signRes.2 0 0
        some (d.1, d.2.2)
      else none
    | [] => none
  let (ipart, cs2) ← intRes
  let (fpart, fdigits, cs3) ← parseFrac cs2
  let (e, cs4) ← parseExp cs3
  let base : ℚ := (ipart : ℚ) + (fpart : ℚ) / ((10 : ℚ) ^ fdigits)
  let mag : ℚ :=
    if 0 ≤ e then base * (10 : ℚ) ^ e.toNat else base / (10 : ℚ) ^ (-e).toNat
  some (if signRes.1 then -mag else mag, cs4)

mutual

/-- Parse one JSON value (leading whitespace allowed); fuel bounds the
recursion depth and is chosen large enough in `jsonParse` that it never
runs out on any input. -/
def parseValue : Nat → List Char → Option (Json × List Char)
  | 0, _ => none
  | fuel + 1, cs =>
    match skipWs cs with
    | 't' :: 'r' :: 'u' :: 'e' :: rest => some (.bool true, rest)
    | 'f' :: 'a' :: 'l' :: 's' :: 'e' :: rest => some (.bool false, rest)
    | 'n' :: 'u' :: 'l' :: 'l' :: rest => some (.null, rest)
    | '"' :: rest =>
      match parseJStringAux [] rest with
      | some (s, rest2) => some (.str s, rest2)
      | none => none
    | '{' :: rest => parseObjBody fuel (skipWs rest)
    | '[' :: rest => parseArrBody fuel (skipWs rest)
    | c :: rest =>
      if c = '-' ∨ c.isDigit then
        match parseNumber (c :: rest) with
        | some (q, rest2) => some (.num q, rest2)
        | none => none
      else none
    | [] => none

/-- Object body, positioned just after `{` with whitespace skipped. -/
def parseObjBody : Nat → List Char → Option (Json × List Char)
  | 0, _ => none
  | fuel + 1, cs =>
    match cs with
    | '}' :: rest => some (.obj [], rest)
    | _ => parseMemberList fuel cs []

/-- Nonempty member list of an object: `"key" : value (, member)* }`. -/
def parseMemberList : Nat → List Char → List (String × Json) → Option (Json × List Char)
  | 0, _, _ => none
  | fuel + 1, cs, acc =>
    match cs with
    | '"' :: rest =>
      match parseJStringAux [] rest with
      | some (k, rest2) =>
        match skipWs rest2 with
        | ':' :: rest3 =>
          match parseValue fuel rest3 with
          | some (v, rest4) =>
            match skipWs rest4 with
            | ',' :: rest5 => parseMemberList fuel (skipWs rest5) (acc ++ [(k, v)])
            | '}' :: rest5 => some (.obj (acc ++ [(k, v)]), rest5)
            | _ => none
          | none => none
        | _ => none
      | none => none
    | _ => none

/-- Array body, positioned just after `[` with whitespace skipped. -/
def parseArrBody : Nat → List Char → Option (Json × List Char)
  | 0, _ => none
  | fuel + 1, cs =>
    match cs with
    | ']' :: rest => some (.arr [], rest)
    | _ => parseElemList fuel cs []

/-- Nonempty element list of an array: `value (, value)* ]`. -/
def parseElemList : Nat → List Char → List Json → Option (Json × List Char)
  | 0, _, _ => none
  | fuel + 1, cs, acc =>
    match parseValue fuel cs with
    | some (v, rest) =>
      match skipWs rest with
      | ',' :: rest2 => parseElemList fuel rest2 (acc ++ [v])
      | ']' :: rest2 => some (.arr (acc ++ [v]), rest2)
      | _ => none
    | none => none

end

/-- `JSON.parse`: a complete JSON text is one value with only
whitespace around it; anything else throws, modelled as `none`. -/
def jsonParse (s : String) : Option Json :=
  match parseValue (4 * s.length + 4) s.data with
  | some (j, rest) => if skipWs rest = [] then some j else none
  | none => none

/-! JavaScript string and number primitives used by the backend. -/

/-- Characters stripped by JavaScript's `String.prototype.trim`
(ECMAScript WhiteSpace and LineTerminator). -/
def jsIsWhitespace (c : Char) : Bool :=
  c.toNat ∈ [0x09, 0x0A, 0x0B, 0x0C, 0x0D, 0x20, 0xA0, 0x1680,
    0x2000, 0x2001, 0x2002, 0x2003, 0x2004, 0x2005, 0x2006, 0x2007,
    0x2008, 0x2009, 0x200A, 0x2028, 0x2029, 0x202F, 0x205F, 0x3000, 0xFEFF]

/-- JavaScript `s.trim()`: strip leading and trailing whitespace. -/
def jsTrim (s : String) : String :=
  String.mk (((s.data.dropWhile jsIsWhitespace).reverse.dropWhile jsIsWhitespace).reverse)

/-- JavaScript `s.length`: number of UTF-16 code units (code points above
the BMP count twice). -/
def utf16Length (s : String) : Nat :=
  s.data.foldl (fun n c => n + (if c.toNat < 0x10000 then 1 else 2)) 0

/-- JavaScript `Math.round`: the nearest integer, halves rounding toward
positive infinity. -/
def jsRound (q : ℚ) : Int := ⌊q + 1 / 2⌋

/-- Property access `o[k]` on a parsed JSON value: defined (`some`) only
on objects with that key; later duplicate keys shadow earlier ones,
as in a JavaScript object literal. Access on any non-object value
yields `undefined` (`none`). -/
def jsGetField : Json → String → Option Json
  | .obj fields, k => fields.foldl (fun acc p => if p.1 = k then some p.2 else acc) none
  | _, _ => none

/-- Optional chaining `v?.[k]` where `v` may itself be `undefined`:
`undefined` and `null` short-circuit to `undefined`. -/
def jsOptGet (v : Option Json) (k : String) : Option Json :=
  match v with
  | none => none
  | some .null => none
  | some j => jsGetField j k

/-- JavaScript truthiness test on a parsed JSON value (`!v` negates it):
`null`, `false`, `0` and `""` are falsy. -/
def jsFalsy : Json → Bool
  | .null => true
  | .bool b => !b
  | .num q => q = 0
  | .str s => s = ""
  | _ => false

/-! Response normalizer, from src/backend/src/evaluator.js. -/

/-- Maximum number of suggestions returned (evaluator.js MAX_SUGGESTIONS). -/
def MAX_SUGGESTIONS : Nat := 5

/-- One category of the evaluation result: a score and its feedback. -/
structure CategoryScore where
  score : Int
  feedback : String
deriving Repr, DecidableEq

/-- Normalized evaluation result with all three categories always present. -/
structure EvaluationResult where
  ambiguity : CategoryScore
  testability : CategoryScore
  completeness : CategoryScore
  suggestions : List String
deriving Repr, DecidableEq

/-- evaluator.js `validateCategory`: clamp a numeric score into [1,10]
after `Math.round`, defaulting to 5; trim a string feedback, defaulting
to the category-specific message. -/
def validateCategory (category : Option Json) (name : String) : CategoryScore :=
  let score : Int :=
    match jsOptGet category "score" with
    | some (.num q) => max 1 (min 10 (jsRound q))
    | _ => 5
  let feedback : String :=
    match jsOptGet category "feedback" with
    | some (.str s) => jsTrim s
    | _ => "Unable to evaluate " ++ name ++ "."
  { score := score, feedback := feedback }

/-- Filter of evaluator.js `validateSuggestions`: keep values that are
strings with non-empty trimmed content. -/
def isNonEmptyTrimmedString : Json → Bool
  | .str s => (jsTrim s).length > 0
  | _ => false

/-- Trim applied by `validateSuggestions` to each kept entry. -/
def jsTrimOf : Json → String
  | .str s => jsTrim s
  | _ => ""

/-- evaluator.js `validateSuggestions`: non-arrays become `[]`; otherwise
keep the non-empty-string entries, trimmed, at most `MAX_SUGGESTIONS`. -/
def validateSuggestions (suggestions : Option Json) : List String :=
  match suggestions with
  | some (.arr xs) =>
    ((xs.filter isNonEmptyTrimmedString).map jsTrimOf).take MAX_SUGGESTIONS
  | _ => []

/-- evaluator.js `getDefaultEvaluation`: the fallback returned when the
model's output cannot be parsed. -/
def getDefaultEvaluation : EvaluationResult :=
  { ambiguity :=
      { score := 5
        feedback := "Unable to fully evaluate ambiguity. Please try again." }
    testability :=
      { score := 5
        feedback := "Unable to fully evaluate testability. Please try again." }
    completeness :=
      { score := 5
        feedback := "Unable to fully evaluate completeness. Please try again." }
    suggestions := ["Please try submitting your requirement again."] }

/-- Index of the first character satisfying `p`, if any. -/
def firstIdxAux (p : Char → Bool) : List Char → Option Nat
  | [] => none
  | c :: cs => if p c then some 0 else Option.map (· + 1) (firstIdxAux p cs)

/-- Index of the last character satisfying `p`, if any. -/
def lastIdxAux (p : Char → Bool) (cs : List Char) : Option Nat :=
  (firstIdxAux p cs.reverse).map (fun r => cs.length - 1 - r)

/-- The substring matched by the regex `\x7b[\s\S]*\x7d` (evaluator.js
`content.match`): from the first `\x7b` to the last `\x7d`, when the
latter comes after the former; `none` when the regex does not match. -/
def extractBraceGroup (content : String) : Option String :=
  match firstIdxAux (· = '{') content.data, lastIdxAux (· = '}') content.data with
  | some i, some j =>
    if i < j then some (String.mk ((content.data.drop i).take (j + 1 - i))) else none
  | _, _ => none

/-- evaluator.js `parseEvaluationResponse`: extract the brace group,
`JSON.parse` it, and validate each piece; any failure yields
`getDefaultEvaluation` (the `catch` branch). -/
def parseEvaluationResponse (content : String) : EvaluationResult :=
  match extractBraceGroup content with
  | none => getDefaultEvaluation
  | some jsonText =>
    match jsonParse jsonText with
    | none => getDefaultEvaluation
    | some evaluation =>
      { ambiguity := validateCategory (jsGetField evaluation "ambiguity") "ambiguity"
        testability := validateCategory (jsGetField evaluation "testability") "testability"
        completeness := validateCategory (jsGetField evaluation "completeness") "completeness"
        suggestions := validateSuggestions (jsGetField evaluation "suggestions") }

/-- The JSON value `parseEvaluationResponse` works from, when both the
regex match and `JSON.parse` succeed. -/
def extractedJson (content : String) : Option Json :=
  match extractBraceGroup content with
  | none => none
  | some jsonText => jsonParse jsonText

/-! Rate limiter, from src/backend/src/rateLimit.js. The DynamoDB table
is modelled as an association list from partition key to item; an item
carries the three numeric attributes the code touches, each optional
because a DynamoDB item need not have every attribute. A call to the
store may also fail for infrastructure reasons; this is injected
through an `Infra` parameter per call. -/

/-- One DynamoDB item of the rate-limit table. -/
structure Item where
  requestCount : Option Int
  lastReset : Option Int
  ttl : Option Int
deriving Repr, DecidableEq

/-- The rate-limit table: association list keyed by partition key. -/
def Store : Type := List (String × Item)

/-- DynamoDB `GetItem` on the table. -/
def getItem (store : Store) (key : String) : Option Item :=
  (List.find? (fun p => p.1 = key) store).map Prod.snd

/-- Writing an item: the new binding shadows any previous one. -/
def setItem (store : Store) (key : String) (item : Item) : Store :=
  (key, item) :: store

/-- Environment-derived configuration (RATE_LIMIT_MAX, RATE_LIMIT_WINDOW;
defaults 10 and 60). -/
structure RateLimitConfig where
  maxPerWindow : Int
  windowSize : Int
deriving Repr, DecidableEq

def defaultRateLimitConfig : RateLimitConfig := { maxPerWindow := 10, windowSize := 60 }

/-- Outcome of one network call to the store: it either behaves normally
or throws an infrastructure error. -/
inductive Infra where
  | ok
  | fail
deriving Repr, DecidableEq

/-- rateLimit.js `checkRateLimit`: `true` means rate limited. `skip`
models `SKIP_RATE_LIMIT === 'true'`; `infra` is the outcome of the
`GetItemCommand` call (`fail` lands in the `catch`, which returns
`false`). -/
def checkRateLimit (cfg : RateLimitConfig) (clientIp : String) (skip : Bool)
    (now : Int) (store : Store) (infra : Infra) : Bool :=
  if clientIp = "unknown" ∨ skip then false
  else
    match infra with
    | .fail => false
    | .ok =>
      let windowStart := now - cfg.windowSize
      match getItem store ("IP#" ++ clientIp) with
      | none => false
      | some item =>
        let lastReset := item.lastReset.getD 0
        let requestCount := item.requestCount.getD 0
        if lastReset < windowStart then false
        else if requestCount ≥ cfg.maxPerWindow then true
        else false

/-- Condition of the `UpdateItemCommand` in rateLimit.js `recordRequest`:
`attribute_not_exists(lastReset) OR lastReset >= :windowStart`. -/
def updateConditionHolds (store : Store) (key : String) (windowStart : Int) : Bool :=
  match getItem store key with
  | none => true
  | some item =>
    match item.lastReset with
    | none => true
    | some r => r ≥ windowStart

/-- Effect of the update expression
`SET requestCount = if_not_exists(requestCount, :zero) + :one,
lastReset = if_not_exists(lastReset, :now), #ttl = :ttl`. -/
def applyUpdate (old : Option Item) (now ttl : Int) : Item :=
  match old with
  | none => { requestCount := some 1, lastReset := some now, ttl := some ttl }
  | some item =>
    { requestCount := some (item.requestCount.getD 0 + 1)
      lastReset := some (item.lastReset.getD now)
      ttl := some ttl }

/-- The item written by rateLimit.js `resetRateLimitCounter`. -/
def resetItem (cfg : RateLimitConfig) (now : Int) : Item :=
  { requestCount := some 1, lastReset := some now, ttl := some (now + cfg.windowSize * 2) }

/-- rateLimit.js `resetRateLimitCounter`: write a fresh count of 1; its
own storage error is swallowed (`catch` only logs). -/
def resetRateLimitCounter (cfg : RateLimitConfig) (clientIp : String) (now : Int)
    (store : Store) (infra : Infra) : Store :=
  match infra with
  | .fail => store
  | .ok => setItem store ("IP#" ++ clientIp) (resetItem cfg now)

/-- rateLimit.js `recordRequest`: skip for the sentinel or bypass flag;
otherwise a conditional atomic increment. A failed condition
(`ConditionalCheckFailedException`) triggers `resetRateLimitCounter`;
any other storage error (`infra1 = .fail`) is swallowed. `infra2` is
the outcome of the reset's own store call. -/
def recordRequest (cfg : RateLimitConfig) (clientIp : String) (skip : Bool)
    (now : Int) (store : Store) (infra1 infra2 : Infra) : Store :=
  if clientIp = "unknown" ∨ skip then store
  else
    match infra1 with
    | .fail => store
    | .ok =>
      let windowStart := now - cfg.windowSize
      let ttl := now + cfg.windowSize * 2
      let key := "IP#" ++ clientIp
      if updateConditionHolds store key windowStart then
        setItem store key (applyUpdate (getItem store key) now ttl)
      else
        resetRateLimitCounter cfg clientIp now store infra2

/-- A sequence of `recordRequest` steps at the given times, with the
store behaving normally throughout. -/
def recordSeq (cfg : RateLimitConfig) (clientIp : String) (skip : Bool)
    (store : Store) (times : List Int) : Store :=
  times.foldl (fun s t => recordRequest cfg clientIp skip t s .ok .ok) store

/-! Lambda handler, from handler.js. The API Gateway event is reduced
to the fields the handler reads; the Bedrock call is an oracle
parameter (`modelReply`) delivering either the model's raw text or a
thrown error. The handler's observable outcome is its HTTP status
code, the evaluation it returns on success, the updated store, and the
ordered trace of the side-effecting steps it performed. -/

/-- The parts of the API Gateway event the handler reads. -/
structure ApiEvent where
  httpMethod : String
  body : Option String
  sourceIp : Option String
  headerXForwardedFor : Option String
  headerXForwardedForLower : Option String
deriving Repr

/-- handler.js `getClientIp` fallback: the `X-Forwarded-For` chain
(either header casing, `||` skipping an empty value), first entry,
trimmed; else the sentinel "unknown". -/
def getClientIpFromHeaders (event : ApiEvent) : String :=
  let forwardedFor : Option String :=
    match event.headerXForwardedFor with
    | some v => if v = "" then event.headerXForwardedForLower else some v
    | none => event.headerXForwardedForLower
  match forwardedFor with
  | some f => if f = "" then "unknown" else jsTrim ((f.splitOn ",").headD "")
  | none => "unknown"

/-- handler.js `getClientIp`: `requestContext.identity.sourceIp` when
truthy, else the forwarded-for headers, else "unknown". -/
def getClientIp (event : ApiEvent) : String :=
  match event.sourceIp with
  | some ip => if ip = "" then getClientIpFromHeaders event else ip
  | none => getClientIpFromHeaders event

/-- handler.js `parseRequestBody`: a falsy body becomes `{}`; a body
that fails `JSON.parse` throws `ValidationError` (modelled as `.error`). -/
def parseRequestBody (body : Option String) : Except Unit Json :=
  match body with
  | none => .ok (Json.obj [])
  | some s =>
    if s = "" then .ok (Json.obj [])
    else
      match jsonParse s with
      | some j => .ok j
      | none => .error ()

/-- The side-effecting steps of one request, in order: the rate-limit
check, the rate-limit record, the Bedrock model call. -/
inductive Effect where
  | check
  | record
  | model
deriving Repr, DecidableEq

/-- Observable outcome of one `handler` invocation. -/
structure HandlerOutcome where
  statusCode : Nat
  evaluation : Option EvaluationResult
  store : Store
  trace : List Effect

/-- handler.js `handler`. `modelReply` is the Bedrock call's outcome:
`.error` when the call throws or returns empty content (a 500 via the
outer catch), `.ok content` the raw model text handed to
`parseEvaluationResponse`. Accessing `.requirement` on a null body or
calling `.trim()` on a truthy non-string throws a `TypeError`, which the
outer catch maps to 500. -/
def handler (event : ApiEvent) (cfg : RateLimitConfig) (skip : Bool) (now : Int)
    (store : Store) (checkInfra recInfra1 recInfra2 : Infra)
    (modelReply : Except Unit String) : HandlerOutcome :=
  if event.httpMethod = "OPTIONS" then
    { statusCode := 200, evaluation := none, store := store, trace := [] }
  else
    match parseRequestBody event.body with
    | .error _ => { statusCode := 400, evaluation := none, store := store, trace := [] }
    | .ok bodyJson =>
      match bodyJson with
      | .null => { statusCode := 500, evaluation := none, store := store, trace := [] }
      | _ =>
        match jsGetField bodyJson "requirement" with
        | none => { statusCode := 400, evaluation := none, store := store, trace := [] }
        | some v =>
          if jsFalsy v then
            { statusCode := 400, evaluation := none, store := store, trace := [] }
          else
            match v with
            | .str s =>
              let requirement := jsTrim s
              if utf16Length requirement < 10 then
                { statusCode := 400, evaluation := none, store := store, trace := [] }
              else if utf16Length requirement > 2000 then
                { statusCode := 400, evaluation := none, store := store, trace := [] }
              else
                let clientIp := getClientIp event
                if checkRateLimit cfg clientIp skip now store checkInfra then
                  { statusCode := 429, evaluation := none, store := store
                    trace := [.check] }
                else
                  let store2 := recordRequest cfg clientIp skip now store recInfra1 recInfra2
                  match modelReply with
                  | .error _ =>
                    { statusCode := 500, evaluation := none, store := store2
                      trace := [.check, .record, .model] }
                  | .ok content =>
                    { statusCode := 200
                      evaluation := some (parseEvaluationResponse content)
                      store := store2
                      trace := [.check, .record, .model] }
            | _ => { statusCode := 500, evaluation := none, store := store, trace := [] }

/-! Predicates used to state the claims. -/

/-- Round half away from zero, the rounding named by the specification's
numeric semantics (§4.2). -/
def roundHalfAwayFromZero (q : ℚ) : Int :=
  if 0 ≤ q then ⌊q + 1 / 2⌋ else -⌊-q + 1 / 2⌋

/-- The raw model text contains some substring that starts with an
opening brace, ends with a closing brace, and parses as JSON. -/
def hasParseableBraceSubstring (content : String) : Prop :=
  ∃ i : Fin content.data.length, ∃ j : Fin content.data.length,
    content.data.get i = '{' ∧ content.data.get j = '}' ∧ (i : ℕ) ≤ (j : ℕ) ∧
    (jsonParse (String.mk ((content.data.drop (i : ℕ)).take ((j : ℕ) + 1 - (i : ℕ))))).isSome

instance (content : String) : Decidable (hasParseableBraceSubstring content) := by
  unfold hasParseableBraceSubstring
  infer_instance

/-- A well-formed model reply object used as concrete test input: three
categories and six suggestions (one more than the cap). -/
def c2Object : String :=
  "\x7b\"ambiguity\":\x7b\"score\":8,\"feedback\":\"Clear\"\x7d,\"testability\":\x7b\"score\":9,\"feedback\":\"Measurable\"\x7d,\"completeness\":\x7b\"score\":6,\"feedback\":\"Missing error cases\"\x7d,\"suggestions\":[\"s1\",\"s2\",\"s3\",\"s4\",\"s5\",\"s6\"]\x7d"

/-- The parse of `c2Object`. -/
def c2Fields : List (String × Json) :=
  [("ambiguity", Json.obj [("score", Json.num 8), ("feedback", Json.str "Clear")]),
   ("testability", Json.obj [("score", Json.num 9), ("feedback", Json.str "Measurable")]),
   ("completeness", Json.obj [("score", Json.num 6), ("feedback", Json.str "Missing error cases")]),
   ("suggestions", Json.arr (["s1", "s2", "s3", "s4", "s5", "s6"].map Json.str))]

/-- A model reply whose ambiguity feedback is present but whitespace-only. -/
def c4Content : String :=
  "\x7b\"ambiguity\":\x7b\"score\":5,\"feedback\":\" \"\x7d,\"testability\":\x7b\"score\":5,\"feedback\":\"t\"\x7d,\"completeness\":\x7b\"score\":5,\"feedback\":\"c\"\x7d,\"suggestions\":[]\x7d"

/-- A model reply with an untrimmed string feedback, a missing feedback,
and a non-string feedback. -/
def c4WitnessContent : String :=
  "\x7b\"ambiguity\":\x7b\"feedback\":\"  solid  \"\x7d,\"testability\":\x7b\x7d,\"completeness\":\x7b\"feedback\":7\x7d\x7d"

/-- An inbound event using the field name the specification documents
(`requirementText`) with an in-range requirement string. -/
def c9Event : ApiEvent :=
  { httpMethod := "POST"
    body := some "\x7b\"requirementText\":\"The system shall respond to every query.\"\x7d"
    sourceIp := some "1.2.3.4"
    headerXForwardedFor := none
    headerXForwardedForLower := none }

/-- An inbound event with the field name the handler actually reads
(`requirement`) and an in-range requirement string. -/
def c9GoodEvent : ApiEvent :=
  { httpMethod := "POST"
    body := some "\x7b\"requirement\":\"The system shall respond to every query.\"\x7d"
    sourceIp := some "1.2.3.4"
    headerXForwardedFor := none
    headerXForwardedForLower := none }

/-- An inbound event whose requirement is below the minimum length. -/
def c10ShortEvent : ApiEvent :=
  { httpMethod := "POST"
    body := some "\x7b\"requirement\":\"short\"\x7d"
    sourceIp := some "5.6.7.8"
    headerXForwardedFor := none
    headerXForwardedForLower := none }

/-- An inbound event with a valid requirement. -/
def c10GoodEvent : ApiEvent :=
  { httpMethod := "POST"
    body := some "\x7b\"requirement\":\"The system shall log in users in under 3 seconds.\"\x7d"
    sourceIp := some "5.6.7.8"
    headerXForwardedFor := none
    headerXForwardedForLower := none }

/-! Theorems. -/

theorem parseEvaluationResponse_unfold (content : String) :
    parseEvaluationResponse content =
      match extractedJson content with
      | none => getDefaultEvaluation
      | some evaluation =>
        { ambiguity := validateCategory (jsGetField evaluation "ambiguity") "ambiguity"
          testability := validateCategory (jsGetField evaluation "testability") "testability"
          completeness := validateCategory (jsGetField evaluation "completeness") "completeness"
          suggestions := validateSuggestions (jsGetField evaluation "suggestions") } := by
  unfold parseEvaluationResponse extractedJson
  cases extractBraceGroup content with
  | none => rfl
  | some t => cases jsonParse t <;> rfl

theorem getItem_setItem (store : Store) (key : String) (item : Item) :
    getItem (setItem store key item) key = some item := by
  simp [getItem, setItem, List.find?_cons]

/-- C7: when the identifier is the sentinel "unknown" or the global
bypass flag is set, `checkRateLimit` returns `Allowed` (`false`) and
`recordRequest` leaves the store untouched. Both facts hold for every
store and every store-call outcome, which exhibits that neither
operation depends on — reads or writes — the counter store. -/
theorem rateLimit_bypass_failOpen (cfg : RateLimitConfig) (clientIp : String)
    (skip : Bool) (now : Int) (store : Store) (checkInfra infra1 infra2 : Infra)
    (h : clientIp = "unknown" ∨ skip = true) :
    checkRateLimit cfg clientIp skip now store checkInfra = false ∧
    recordRequest cfg clientIp skip now store infra1 infra2 = store := by
  have h' : clientIp = "unknown" ∨ skip = true := h
  constructor
  · unfold checkRateLimit
    rw [if_pos h']
  · unfold recordRequest
    rw [if_pos h']

theorem rateLimit_bypass_failOpen_witness :
    checkRateLimit defaultRateLimitConfig "unknown" false 1000 [] .ok = false ∧
    recordRequest defaultRateLimitConfig "unknown" false 1000 [] .ok .ok = [] :=
  rateLimit_bypass_failOpen defaultRateLimitConfig "unknown" false 1000 [] .ok .ok .ok
    (Or.inl rfl)

/-- C8: for every store state and every identifier, a storage error
during the check step yields `Allowed` (`false`), and a storage error
during the record step leaves the store untouched — whether the error
hits the conditional update itself, or (when the update's condition
fails because the window rolled over) the subsequent reset call; in the
embedding both functions are total, so no error ever propagates to the
caller. -/
theorem rateLimit_storageError_failOpen (cfg : RateLimitConfig) (clientIp : String)
    (skip : Bool) (now : Int) (store : Store) (infra2 : Infra) :
    checkRateLimit cfg clientIp skip now store .fail = false ∧
    recordRequest cfg clientIp skip now store .fail infra2 = store ∧
    (updateConditionHolds store ("IP#" ++ clientIp) (now - cfg.windowSize) = false →
      recordRequest cfg clientIp skip now store .ok .fail = store) := by
  by_cases hb : clientIp = "unknown" ∨ skip = true
  · refine ⟨?_, ?_, fun _ => ?_⟩
    · unfold checkRateLimit
      rw [if_pos hb]
    · unfold recordRequest
      rw [if_pos hb]
    · unfold recordRequest
      rw [if_pos hb]
  · refine ⟨?_, ?_, fun hcond => ?_⟩
    · unfold checkRateLimit
      rw [if_neg hb]
    · unfold recordRequest
      rw [if_neg hb]
    · unfold recordRequest
      rw [if_neg hb]
      simp only [hcond, if_false, Bool.false_eq_true]
      rfl

theorem rateLimit_storageError_failOpen_witness :
    checkRateLimit defaultRateLimitConfig "1.2.3.4" false 100
      [("IP#1.2.3.4", { requestCount := some 10, lastReset := some 90, ttl := some 210 })]
      .fail = false ∧
    checkRateLimit defaultRateLimitConfig "1.2.3.4" false 100
      [("IP#1.2.3.4", { requestCount := some 10, lastReset := some 90, ttl := some 210 })]
      .ok = true ∧
    recordRequest defaultRateLimitConfig "1.2.3.4" false 100
      [("IP#1.2.3.4", { requestCount := some 10, lastReset := some 90, ttl := some 210 })]
      .fail .ok =
      [("IP#1.2.3.4", { requestCount := some 10, lastReset := some 90, ttl := some 210 })] ∧
    recordRequest defaultRateLimitConfig "1.2.3.4" false 100
      [("IP#1.2.3.4", { requestCount := some 3, lastReset := some 0, ttl := some 120 })]
      .ok .fail =
      [("IP#1.2.3.4", { requestCount := some 3, lastReset := some 0, ttl := some 120 })] :=
  ⟨(rateLimit_storageError_failOpen defaultRateLimitConfig "1.2.3.4" false 100
      [("IP#1.2.3.4", { requestCount := some 10, lastReset := some 90, ttl := some 210 })]
      .ok).1,
   by decide,
   (rateLimit_storageError_failOpen defaultRateLimitConfig "1.2.3.4" false 100
      [("IP#1.2.3.4", { requestCount := some 10, lastReset := some 90, ttl := some 210 })]
      .ok).2.1,
   (rateLimit_storageError_failOpen defaultRateLimitConfig "1.2.3.4" false 100
      [("IP#1.2.3.4", { requestCount := some 3, lastReset := some 0, ttl := some 120 })]
      .fail).2.2 (by decide)⟩

/-- C6 counterexample: at the exact window boundary
(`now − windowStart = windowSize`, here 160 − 100 = 60) the claim says
the check returns `Allowed` regardless of the stored count, but the
code's reset test is strict (`lastReset < now − windowSize`), so the
check still returns `Limited` (`true`). -/
theorem checkRateLimit_boundary_counterexample :
    checkRateLimit defaultRateLimitConfig "9.9.9.9" false 160
      [("IP#9.9.9.9", { requestCount := some 10, lastReset := some 100, ttl := some 220 })]
      .ok = true ∧
    (160 : Int) - 100 ≥ defaultRateLimitConfig.windowSize := by
  constructor
  · rfl
  · decide

/-- C6 amended: once the window boundary is strictly passed
(`now − windowStart > windowSize`), the next check returns `Allowed`
regardless of the stored count, and the subsequent record step resets
the record to count 1 with windowStart `now`. -/
theorem checkRateLimit_allowed_after_window (cfg : RateLimitConfig) (clientIp : String)
    (store : Store) (item : Item) (r now : Int)
    (hip : clientIp ≠ "unknown")
    (hget : getItem store ("IP#" ++ clientIp) = some item)
    (hr : item.lastReset = some r)
    (helapsed : cfg.windowSize < now - r) :
    checkRateLimit cfg clientIp false now store .ok = false ∧
    getItem (recordRequest cfg clientIp false now store .ok .ok) ("IP#" ++ clientIp) =
      some { requestCount := some 1, lastReset := some now
             ttl := some (now + cfg.windowSize * 2) } := by
  have hb : ¬ (clientIp = "unknown" ∨ false = true) := by simp [hip]
  constructor
  · unfold checkRateLimit
    rw [if_neg hb]
    simp only [hget, hr, Option.getD_some]
    rw [if_pos (by omega)]
  · unfold recordRequest
    rw [if_neg hb]
    have hcond : updateConditionHolds store ("IP#" ++ clientIp) (now - cfg.windowSize) = false := by
      unfold updateConditionHolds
      simp only [hget, hr, ge_iff_le, decide_eq_false_iff_not, not_le]
      omega
    simp only [hcond, if_false, Bool.false_eq_true]
    unfold resetRateLimitCounter
    rw [getItem_setItem]
    rfl

theorem checkRateLimit_allowed_after_window_witness :
    checkRateLimit defaultRateLimitConfig "2.3.4.5" false 161
      [("IP#2.3.4.5", { requestCount := some 10, lastReset := some 100, ttl := some 220 })]
      .ok = false ∧
    getItem
      (recordRequest defaultRateLimitConfig "2.3.4.5" false 161
        [("IP#2.3.4.5", { requestCount := some 10, lastReset := some 100, ttl := some 220 })]
        .ok .ok) "IP#2.3.4.5" =
      some { requestCount := some 1, lastReset := some 161, ttl := some 281 } :=
  checkRateLimit_allowed_after_window defaultRateLimitConfig "2.3.4.5"
    [("IP#2.3.4.5", { requestCount := some 10, lastReset := some 100, ttl := some 220 })]
    { requestCount := some 10, lastReset := some 100, ttl := some 220 } 100 161
    (by decide) rfl rfl (by decide)

theorem clamp_jsRound_eq_clamp_roundHalfAway (q : ℚ) :
    max 1 (min 10 (jsRound q)) = max 1 (min 10 (roundHalfAwayFromZero q)) := by
  unfold jsRound roundHalfAwayFromZero
  by_cases hq : 0 ≤ q
  · rw [if_pos hq]
  · rw [if_neg hq]
    push_neg at hq
    have h1 : ⌊q + 1 / 2⌋ ≤ 0 := by
      have hlt : ⌊q + 1 / 2⌋ < 1 := by
        apply Int.floor_lt.mpr
        push_cast
        linarith
      omega
    have h2 : -⌊-q + 1 / 2⌋ ≤ 0 := by
      have hnn : 0 ≤ ⌊-q + 1 / 2⌋ := Int.floor_nonneg.mpr (by linarith)
      omega
    rw [min_eq_right (by omega : ⌊q + 1 / 2⌋ ≤ 10),
        min_eq_right (by omega : -⌊-q + 1 / 2⌋ ≤ 10),
        max_eq_left (by omega : ⌊q + 1 / 2⌋ ≤ 1),
        max_eq_left (by omega : -⌊-q + 1 / 2⌋ ≤ 1)]

/-- C3: for a category value whose score field is present and numeric,
the normalized score is the input rounded half away from zero and then
clamped to [1,10]; for an absent or non-numeric score field it is 5;
and in every case the result lies in [1,10]. (The code uses JavaScript
`Math.round`, which sends negative halves toward positive infinity
instead of away from zero, but the two roundings agree after clamping
to [1,10] — see `clamp_jsRound_eq_clamp_roundHalfAway`.) -/
theorem validateCategory_score_spec (category : Option Json) (name : String) :
    (∀ q : ℚ, jsOptGet category "score" = some (Json.num q) →
      (validateCategory category name).score = max 1 (min 10 (roundHalfAwayFromZero q)))
    ∧ ((∀ q : ℚ, jsOptGet category "score" ≠ some (Json.num q)) →
      (validateCategory category name).score = 5)
    ∧ 1 ≤ (validateCategory category name).score
    ∧ (validateCategory category name).score ≤ 10 := by
  have hval : ∀ q : ℚ, jsOptGet category "score" = some (Json.num q) →
      (validateCategory category name).score = max 1 (min 10 (roundHalfAwayFromZero q)) := by
    intro q hq
    unfold validateCategory
    simp only [hq]
    exact clamp_jsRound_eq_clamp_roundHalfAway q
  have hdef : (∀ q : ℚ, jsOptGet category "score" ≠ some (Json.num q)) →
      (validateCategory category name).score = 5 := by
    intro hne
    unfold validateCategory
    cases hj : jsOptGet category "score" with
    | none => simp only [hj]
    | some j =>
      cases j with
      | num q => exact absurd hj (hne q)
      | null => simp only [hj]
      | bool b => simp only [hj]
      | str s => simp only [hj]
      | arr xs => simp only [hj]
      | obj fields => simp only [hj]
  have hbounds : 1 ≤ (validateCategory category name).score ∧
      (validateCategory category name).score ≤ 10 := by
    unfold validateCategory
    cases hj : jsOptGet category "score" with
    | none => simp only [hj]; omega
    | some j =>
      cases j with
      | num q =>
        simp only [hj]
        constructor
        · exact le_max_left 1 _
        · exact max_le (by omega) (min_le_left 10 _)
      | null => simp only [hj]; omega
      | bool b => simp only [hj]; omega
      | str s => simp only [hj]; omega
      | arr xs => simp only [hj]; omega
      | obj fields => simp only [hj]; omega
  exact ⟨hval, hdef, hbounds.1, hbounds.2⟩

theorem validateCategory_score_spec_witness :
    (validateCategory
      (some (Json.obj [("score", Json.num (19 / 2)), ("feedback", Json.str "fine")]))
      "ambiguity").score = max 1 (min 10 (roundHalfAwayFromZero (19 / 2)))
    ∧ (validateCategory (some (Json.obj [("feedback", Json.str "x")])) "testability").score = 5 := by
  constructor
  · exact (validateCategory_score_spec
      (some (Json.obj [("score", Json.num (19 / 2)), ("feedback", Json.str "fine")]))
      "ambiguity").1 (19 / 2) rfl
  · apply (validateCategory_score_spec (some (Json.obj [("feedback", Json.str "x")]))
      "testability").2.1
    intro q hq
    rw [show jsOptGet (some (Json.obj [("feedback", Json.str "x")])) "score" = none from rfl]
      at hq
    cases hq

theorem recordRequest_step_fresh (cfg : RateLimitConfig) (clientIp : String)
    (t : Int) (store : Store)
    (hip : clientIp ≠ "unknown")
    (hget : getItem store ("IP#" ++ clientIp) = none) :
    recordRequest cfg clientIp false t store .ok .ok =
      setItem store ("IP#" ++ clientIp)
        { requestCount := some 1, lastReset := some t
          ttl := some (t + cfg.windowSize * 2) } := by
  unfold recordRequest
  rw [if_neg (by simp [hip])]
  have hcond : updateConditionHolds store ("IP#" ++ clientIp) (t - cfg.windowSize) = true := by
    unfold updateConditionHolds
    simp only [hget]
  simp only [hcond, if_true]
  unfold applyUpdate
  simp only [hget]

theorem recordRequest_step_existing (cfg : RateLimitConfig) (clientIp : String)
    (t : Int) (store : Store) (c0 r : Int) (ttl0 : Option Int)
    (hip : clientIp ≠ "unknown")
    (hget : getItem store ("IP#" ++ clientIp) =
      some { requestCount := some c0, lastReset := some r, ttl := ttl0 })
    (hwin : t - cfg.windowSize ≤ r) :
    recordRequest cfg clientIp false t store .ok .ok =
      setItem store ("IP#" ++ clientIp)
        { requestCount := some (c0 + 1), lastReset := some r
          ttl := some (t + cfg.windowSize * 2) } := by
  unfold recordRequest
  rw [if_neg (by simp [hip])]
  have hcond : updateConditionHolds store ("IP#" ++ clientIp) (t - cfg.windowSize) = true := by
    unfold updateConditionHolds
    simp only [hget, ge_iff_le, decide_eq_true_eq]
    omega
  simp only [hcond, if_true]
  unfold applyUpdate
  simp only [hget, Option.getD_some]

theorem recordSeq_existing (cfg : RateLimitConfig) (clientIp : String)
    (hip : clientIp ≠ "unknown") (times : List Int) :
    ∀ (store : Store) (c0 r : Int) (ttl0 : Option Int),
    getItem store ("IP#" ++ clientIp) =
      some { requestCount := some c0, lastReset := some r, ttl := ttl0 } →
    (∀ t ∈ times, t - cfg.windowSize ≤ r) →
    ∃ ttlFin : Option Int,
      getItem (recordSeq cfg clientIp false store times) ("IP#" ++ clientIp) =
        some { requestCount := some (c0 + (times.length : Int)), lastReset := some r
               ttl := ttlFin } := by
  induction times with
  | nil =>
    intro store c0 r ttl0 hget _
    refine ⟨ttl0, ?_⟩
    simpa [recordSeq] using hget
  | cons t ts ih =>
    intro store c0 r ttl0 hget hwin
    have hstep := recordRequest_step_existing cfg clientIp t store c0 r ttl0 hip hget
      (hwin t (List.mem_cons_self t ts))
    have hfold : recordSeq cfg clientIp false store (t :: ts) =
        recordSeq cfg clientIp false
          (setItem store ("IP#" ++ clientIp)
            { requestCount := some (c0 + 1), lastReset := some r
              ttl := some (t + cfg.windowSize * 2) }) ts := by
      simp only [recordSeq, List.foldl_cons, hstep]
    rw [hfold]
    obtain ⟨ttlFin, hfin⟩ := ih
      (setItem store ("IP#" ++ clientIp)
        { requestCount := some (c0 + 1), lastReset := some r
          ttl := some (t + cfg.windowSize * 2) })
      (c0 + 1) r (some (t + cfg.windowSize * 2))
      (getItem_setItem _ _ _)
      (fun t2 ht2 => hwin t2 (List.mem_cons_of_mem t ht2))
    refine ⟨ttlFin, ?_⟩
    rw [hfin]
    have harith : c0 + 1 + (ts.length : Int) = c0 + (((t :: ts).length : Nat) : Int) := by
      simp only [List.length_cons]
      push_cast
      ring
    rw [harith]

/-- C5: for an identifier other than the bypass sentinel, starting from
a fresh (absent) record or from a just-reset record, after
`maxPerWindow` accepted record steps whose times all lie within the
window, the next check returns `Limited` (`true`) at any time at which
the window boundary has not yet elapsed. -/
theorem checkRateLimit_limited_after_max (cfg : RateLimitConfig) (clientIp : String)
    (store : Store) (t1 : Int) (rest : List Int) (tCheck start : Int)
    (hip : clientIp ≠ "unknown")
    (hstart :
      (getItem store ("IP#" ++ clientIp) = none ∧ start = t1) ∨
      getItem store ("IP#" ++ clientIp) = some (resetItem cfg start))
    (hwin : ∀ t ∈ t1 :: rest, t - start < cfg.windowSize)
    (hmax : (((t1 :: rest).length : Nat) : Int) = cfg.maxPerWindow)
    (hcheck : tCheck - start < cfg.windowSize) :
    checkRateLimit cfg clientIp false tCheck
      (recordSeq cfg clientIp false store (t1 :: rest)) .ok = true := by
  have hb : ¬ (clientIp = "unknown" ∨ false = true) := by simp [hip]
  have hfinal : ∃ cnt : Int, ∃ ttlFin : Option Int,
      getItem (recordSeq cfg clientIp false store (t1 :: rest)) ("IP#" ++ clientIp) =
        some { requestCount := some cnt, lastReset := some start, ttl := ttlFin } ∧
      cfg.maxPerWindow ≤ cnt := by
    rcases hstart with ⟨hnone, hst⟩ | hreset
    · subst hst
      have hstep := recordRequest_step_fresh cfg clientIp start store hip hnone
      have hfold : recordSeq cfg clientIp false store (start :: rest) =
          recordSeq cfg clientIp false
            (setItem store ("IP#" ++ clientIp)
              { requestCount := some 1, lastReset := some start
                ttl := some (start + cfg.windowSize * 2) }) rest := by
        simp only [recordSeq, List.foldl_cons, hstep]
      rw [hfold]
      obtain ⟨ttlFin, hfin⟩ := recordSeq_existing cfg clientIp hip rest
        (setItem store ("IP#" ++ clientIp)
          { requestCount := some 1, lastReset := some start
            ttl := some (start + cfg.windowSize * 2) })
        1 start (some (start + cfg.windowSize * 2))
        (getItem_setItem _ _ _)
        (fun t ht => le_of_lt (by
          have := hwin t (List.mem_cons_of_mem start ht)
          omega))
      refine ⟨1 + (rest.length : Int), ttlFin, hfin, ?_⟩
      simp only [List.length_cons] at hmax
      push_cast at hmax
      omega
    · obtain ⟨ttlFin, hfin⟩ := recordSeq_existing cfg clientIp hip (t1 :: rest)
        store 1 start (some (start + cfg.windowSize * 2)) hreset
        (fun t ht => le_of_lt (by
          have := hwin t ht
          omega))
      refine ⟨1 + ((t1 :: rest).length : Int), ttlFin, hfin, ?_⟩
      omega
  obtain ⟨cnt, ttlFin, hget, hcnt⟩ := hfinal
  unfold checkRateLimit
  rw [if_neg hb]
  simp only [hget, Option.getD_some]
  rw [if_neg (by omega : ¬ start < tCheck - cfg.windowSize)]
  rw [if_pos (by omega : cnt ≥ cfg.maxPerWindow)]

theorem checkRateLimit_limited_after_max_witness :
    checkRateLimit defaultRateLimitConfig "7.7.7.7" false 130
      (recordSeq defaultRateLimitConfig "7.7.7.7" false []
        (100 :: List.replicate 9 100)) .ok = true :=
  checkRateLimit_limited_after_max defaultRateLimitConfig "7.7.7.7" [] 100
    (List.replicate 9 100) 130 100
    (by decide)
    (Or.inl ⟨rfl, rfl⟩)
    (by decide)
    (by decide)
    (by decide)

theorem firstIdxAux_spec (p : Char → Bool) :
    ∀ (cs : List Char) (i : Nat), firstIdxAux p cs = some i →
      ∃ h : i < cs.length, p (cs.get ⟨i, h⟩) = true := by
  intro cs
  induction cs with
  | nil =>
    intro i h
    simp [firstIdxAux] at h
  | cons c cs ih =>
    intro i h
    rw [firstIdxAux] at h
    by_cases hc : p c
    · rw [if_pos hc] at h
      obtain rfl : (0 : Nat) = i := Option.some.inj h
      exact ⟨by simp, by simpa using hc⟩
    · rw [if_neg hc] at h
      rw [Option.map_eq_some'] at h
      obtain ⟨a, ha, hia⟩ := h
      subst hia
      obtain ⟨hlt, hget⟩ := ih a ha
      refine ⟨by simpa using Nat.succ_lt_succ hlt, ?_⟩
      simpa using hget

theorem lastIdxAux_spec (p : Char → Bool) (cs : List Char) (j : Nat)
    (h : lastIdxAux p cs = some j) :
    ∃ hj : j < cs.length, p (cs.get ⟨j, hj⟩) = true := by
  unfold lastIdxAux at h
  rw [Option.map_eq_some'] at h
  obtain ⟨r, hr, hjr⟩ := h
  obtain ⟨hrlt, hget⟩ := firstIdxAux_spec p cs.reverse r hr
  have hrlen : r < cs.length := by simpa using hrlt
  subst hjr
  have hn : cs.length - 1 - r < cs.length := by omega
  refine ⟨hn, ?_⟩
  have hrev : cs.reverse.get ⟨r, hrlt⟩ = cs.get ⟨cs.length - 1 - r, hn⟩ :=
    List.get_reverse' cs ⟨r, hrlt⟩ hn
  rwa [hrev] at hget

/-- C1: for every raw model output with no parseable brace-delimited
substring, `parseEvaluationResponse` returns exactly the default
fallback result: score 5 with the category-specific unable-to-evaluate
message for all three categories, and the single retry suggestion.
(`parseEvaluationResponse` is a total function of the input string, so
it never raises on any input.) -/
theorem parseEvaluationResponse_default_of_noParseable (content : String)
    (h : ¬ hasParseableBraceSubstring content) :
    parseEvaluationResponse content = getDefaultEvaluation ∧
    getDefaultEvaluation =
      { ambiguity :=
          { score := 5
            feedback := "Unable to fully evaluate ambiguity. Please try again." }
        testability :=
          { score := 5
            feedback := "Unable to fully evaluate testability. Please try again." }
        completeness :=
          { score := 5
            feedback := "Unable to fully evaluate completeness. Please try again." }
        suggestions := ["Please try submitting your requirement again."] } := by
  refine ⟨?_, rfl⟩
  unfold parseEvaluationResponse
  split
  · rfl
  next jsonText hx =>
  split
  · rfl
  next j hp =>
      exfalso
      apply h
      unfold extractBraceGroup at hx
      split at hx
      · next i jIdx hfi hfj =>
        split at hx
        · next hij =>
          obtain rfl : String.mk ((content.data.drop i).take (jIdx + 1 - i)) = jsonText :=
            Option.some.inj hx
          obtain ⟨hilt, hgeti⟩ := firstIdxAux_spec (· = '{') content.data i hfi
          obtain ⟨hjlt, hgetj⟩ := lastIdxAux_spec (· = '}') content.data jIdx hfj
          refine ⟨⟨i, hilt⟩, ⟨jIdx, hjlt⟩, ?_, ?_, ?_, ?_⟩
          · simpa using hgeti
          · simpa using hgetj
          · exact le_of_lt hij
          · rw [hp]
            rfl
        · cases hx
      · cases hx

theorem parseEvaluationResponse_default_of_noParseable_witness :
    parseEvaluationResponse "I cannot process this." = getDefaultEvaluation ∧
    getDefaultEvaluation =
      { ambiguity :=
          { score := 5
            feedback := "Unable to fully evaluate ambiguity. Please try again." }
        testability :=
          { score := 5
            feedback := "Unable to fully evaluate testability. Please try again." }
        completeness :=
          { score := 5
            feedback := "Unable to fully evaluate completeness. Please try again." }
        suggestions := ["Please try submitting your requirement again."] } :=
  parseEvaluationResponse_default_of_noParseable "I cannot process this." (by decide)

theorem string_length_pos_of_ne {s : String} (h : s ≠ "") : 0 < s.length := by
  cases s with
  | mk data =>
    cases data with
    | nil => exact absurd rfl h
    | cons c cs => simp [String.length]

theorem firstIdxAux_cons (p : Char → Bool) (c : Char) (cs : List Char) :
    firstIdxAux p (c :: cs) =
      if p c then some 0 else Option.map (· + 1) (firstIdxAux p cs) := rfl

theorem firstIdxAux_append (p : Char → Bool) (l1 l2 : List Char)
    (h : ∀ c ∈ l1, p c = false) :
    firstIdxAux p (l1 ++ l2) = (firstIdxAux p l2).map (· + l1.length) := by
  induction l1 with
  | nil =>
    simp only [List.nil_append, List.length_nil]
    cases firstIdxAux p l2 <;> simp
  | cons c l1 ih =>
    have hc : p c = false := h c (List.mem_cons_self c l1)
    rw [List.cons_append, firstIdxAux_cons, if_neg (by simp [hc])]
    rw [ih (fun c2 hc2 => h c2 (List.mem_cons_of_mem c hc2))]
    cases firstIdxAux p l2 with
    | none => simp
    | some a =>
      simp only [Option.map_some', List.length_cons, Option.some.injEq]
      omega

theorem extractBraceGroup_decomp (pre obj post : String)
    (hpre : ∀ c ∈ pre.data, ¬ c = '{')
    (hpost : ∀ c ∈ post.data, ¬ c = '}')
    (hhead : obj.data.head? = some '{')
    (hlast : obj.data.getLast? = some '}') :
    extractBraceGroup (pre ++ obj ++ post) = some obj := by
  obtain ⟨tail, htail⟩ : ∃ tail, obj.data = '{' :: tail := by
    cases hod : obj.data with
    | nil => rw [hod] at hhead; cases hhead
    | cons c t =>
      rw [hod] at hhead
      simp only [List.head?_cons, Option.some.injEq] at hhead
      exact ⟨t, by rw [hhead]⟩
  have hne : obj.data ≠ [] := by rw [htail]; simp
  have hlastc : obj.data.getLast hne = '}' := by
    have hgl := List.getLast?_eq_getLast obj.data hne
    rw [hlast] at hgl
    exact (Option.some.inj hgl).symm
  have hsplit : obj.data.dropLast ++ ['}'] = obj.data := by
    rw [← hlastc]
    exact List.dropLast_append_getLast hne
  have hlen2 : 2 ≤ obj.data.length := by
    rcases tail with _ | ⟨c2, t2⟩
    · exfalso
      rw [htail] at hlast
      simp [List.getLast?] at hlast
    · rw [htail]
      simp only [List.length_cons]
      omega
  have hdata : (pre ++ obj ++ post).data = pre.data ++ (obj.data ++ post.data) := by
    rw [String.data_append, String.data_append, List.append_assoc]
  have h1 : firstIdxAux (· = '{') (pre.data ++ (obj.data ++ post.data)) =
      some pre.data.length := by
    rw [firstIdxAux_append _ _ _ (fun c hc => by simp [hpre c hc])]
    rw [htail, List.cons_append, firstIdxAux_cons, if_pos (by simp)]
    simp
  have hrevobj : obj.data.reverse = '}' :: obj.data.dropLast.reverse := by
    conv_lhs => rw [← hsplit]
    rw [List.reverse_append]
    simp
  have h2 : lastIdxAux (· = '}') (pre.data ++ (obj.data ++ post.data)) =
      some (pre.data.length + obj.data.length - 1) := by
    unfold lastIdxAux
    rw [show (pre.data ++ (obj.data ++ post.data)).reverse =
        post.data.reverse ++ (obj.data.reverse ++ pre.data.reverse) by
      simp [List.reverse_append]]
    rw [firstIdxAux_append _ _ _
      (fun c hc => by simp [hpost c (List.mem_reverse.mp hc)])]
    rw [hrevobj, List.cons_append, firstIdxAux_cons, if_pos (by simp)]
    simp only [Option.map_some', List.length_reverse, List.length_append]
    congr 1
    omega
  unfold extractBraceGroup
  rw [hdata, h1, h2]
  show (if pre.data.length < pre.data.length + obj.data.length - 1 then
      some (String.mk
        (((pre.data ++ (obj.data ++ post.data)).drop pre.data.length).take
          (pre.data.length + obj.data.length - 1 + 1 - pre.data.length)))
    else none) = some obj
  rw [if_pos (by omega)]
  rw [show pre.data.length + obj.data.length - 1 + 1 - pre.data.length =
      obj.data.length by omega]
  rw [List.drop_left, List.take_left]

theorem validateCategory_exact (category : Option Json) (name : String) (q : ℚ) (f : String)
    (hs : jsOptGet category "score" = some (Json.num q))
    (hf : jsOptGet category "feedback" = some (Json.str f))
    (hft : jsTrim f = f) :
    validateCategory category name = { score := max 1 (min 10 (jsRound q)), feedback := f } := by
  unfold validateCategory
  simp only [hs, hf, hft]

theorem validateSuggestions_strings (ss : List String)
    (hss : ∀ s ∈ ss, jsTrim s = s ∧ s ≠ "") :
    validateSuggestions (some (Json.arr (ss.map Json.str))) = ss.take MAX_SUGGESTIONS := by
  show (((ss.map Json.str).filter isNonEmptyTrimmedString).map jsTrimOf).take MAX_SUGGESTIONS =
    ss.take MAX_SUGGESTIONS
  have hfilter : (ss.map Json.str).filter isNonEmptyTrimmedString = ss.map Json.str := by
    rw [List.filter_eq_self]
    intro a ha
    obtain ⟨s, hs, rfl⟩ := List.mem_map.mp ha
    obtain ⟨h1, h2⟩ := hss s hs
    simp only [isNonEmptyTrimmedString, h1, gt_iff_lt, decide_eq_true_eq]
    exact string_length_pos_of_ne h2
  rw [hfilter, List.map_map]
  have hmap : ss.map (jsTrimOf ∘ Json.str) = ss := by
    have hcg : ∀ s ∈ ss, (jsTrimOf ∘ Json.str) s = id s := by
      intro s hs
      simp [jsTrimOf, (hss s hs).1]
    rw [List.map_congr_left hcg, List.map_id]
  rw [hmap]

set_option maxRecDepth 100000 in
/-- C2 counterexample: the claim as stated allows arbitrary commentary
after the object, but when that commentary contains a closing brace the
regex `\x7b[\s\S]*\x7d` (first `\x7b` to last `\x7d`) grabs past the
object, `JSON.parse` fails, and the result is the default fallback
instead of the object's exact values — here `c2Object` is a valid
object with all three categories and a suggestions list, yet the
ambiguity feedback comes back as the fallback, not "Clear". -/
theorem parseEvaluationResponse_commentaryBrace_counterexample :
    parseEvaluationResponse (c2Object ++ " that is all \x7d") = getDefaultEvaluation ∧
    (jsonParse c2Object).isSome = true ∧
    (parseEvaluationResponse (c2Object ++ " that is all \x7d")).ambiguity.feedback ≠ "Clear" := by
  refine ⟨?_, ?_, ?_⟩
  · with_unfolding_all rfl
  · with_unfolding_all rfl
  · with_unfolding_all decide

/-- C2 amended: for a raw model output of the form
commentary-object-commentary where the leading commentary contains no
opening brace and the trailing commentary contains no closing brace,
and the object is valid structured text with all three category
sub-objects (numeric scores, trimmed non-empty string feedback) and a
suggestions list of trimmed non-empty strings, `parseEvaluationResponse`
extracts the object, parses it, and returns exactly those values, with
each score clamped to [1,10] and the suggestions capped at 5 entries. -/
theorem parseEvaluationResponse_exact_of_wellFormed
    (pre obj post : String) (fields : List (String × Json))
    (qa qt qc : ℚ) (fa ft fc : String) (ss : List String)
    (hpre : ∀ c ∈ pre.data, ¬ c = '{')
    (hpost : ∀ c ∈ post.data, ¬ c = '}')
    (hhead : obj.data.head? = some '{')
    (hlast : obj.data.getLast? = some '}')
    (hparse : jsonParse obj = some (Json.obj fields))
    (hambS : jsOptGet (jsGetField (Json.obj fields) "ambiguity") "score" = some (Json.num qa))
    (hambF : jsOptGet (jsGetField (Json.obj fields) "ambiguity") "feedback" = some (Json.str fa))
    (hfa : jsTrim fa = fa)
    (htesS : jsOptGet (jsGetField (Json.obj fields) "testability") "score" = some (Json.num qt))
    (htesF : jsOptGet (jsGetField (Json.obj fields) "testability") "feedback" = some (Json.str ft))
    (hft : jsTrim ft = ft)
    (hcomS : jsOptGet (jsGetField (Json.obj fields) "completeness") "score" = some (Json.num qc))
    (hcomF : jsOptGet (jsGetField (Json.obj fields) "completeness") "feedback" = some (Json.str fc))
    (hfc : jsTrim fc = fc)
    (hsugg : jsGetField (Json.obj fields) "suggestions" = some (Json.arr (ss.map Json.str)))
    (hss : ∀ s ∈ ss, jsTrim s = s ∧ s ≠ "") :
    parseEvaluationResponse (pre ++ obj ++ post) =
      { ambiguity := { score := max 1 (min 10 (jsRound qa)), feedback := fa }
        testability := { score := max 1 (min 10 (jsRound qt)), feedback := ft }
        completeness := { score := max 1 (min 10 (jsRound qc)), feedback := fc }
        suggestions := ss.take MAX_SUGGESTIONS } := by
  have hext : extractedJson (pre ++ obj ++ post) = some (Json.obj fields) := by
    unfold extractedJson
    rw [extractBraceGroup_decomp pre obj post hpre hpost hhead hlast]
    exact hparse
  rw [parseEvaluationResponse_unfold, hext]
  show { ambiguity := validateCategory (jsGetField (Json.obj fields) "ambiguity") "ambiguity"
         testability := validateCategory (jsGetField (Json.obj fields) "testability") "testability"
         completeness :=
           validateCategory (jsGetField (Json.obj fields) "completeness") "completeness"
         suggestions := validateSuggestions (jsGetField (Json.obj fields) "suggestions") } =
    ({ ambiguity := { score := max 1 (min 10 (jsRound qa)), feedback := fa }
       testability := { score := max 1 (min 10 (jsRound qt)), feedback := ft }
       completeness := { score := max 1 (min 10 (jsRound qc)), feedback := fc }
       suggestions := ss.take MAX_SUGGESTIONS } : EvaluationResult)
  rw [validateCategory_exact _ "ambiguity" qa fa hambS hambF hfa,
      validateCategory_exact _ "testability" qt ft htesS htesF hft,
      validateCategory_exact _ "completeness" qc fc hcomS hcomF hfc,
      hsugg, validateSuggestions_strings ss hss]

set_option maxRecDepth 100000 in
theorem parseEvaluationResponse_exact_of_wellFormed_witness :
    parseEvaluationResponse ("Sure: " ++ c2Object ++ " done.") =
      { ambiguity := { score := max 1 (min 10 (jsRound 8)), feedback := "Clear" }
        testability := { score := max 1 (min 10 (jsRound 9)), feedback := "Measurable" }
        completeness := { score := max 1 (min 10 (jsRound 6)), feedback := "Missing error cases" }
        suggestions := ["s1", "s2", "s3", "s4", "s5", "s6"].take MAX_SUGGESTIONS } :=
  parseEvaluationResponse_exact_of_wellFormed "Sure: " c2Object " done." c2Fields
    8 9 6 "Clear" "Measurable" "Missing error cases" ["s1", "s2", "s3", "s4", "s5", "s6"]
    (by decide) (by decide) (by decide) (by decide)
    (by with_unfolding_all rfl)
    rfl rfl (by decide) rfl rfl (by decide) rfl rfl (by decide) rfl
    (by decide)

theorem validateCategory_feedback_cases (category : Option Json) (name : String) :
    (∀ s : String, jsOptGet category "feedback" = some (Json.str s) →
      (validateCategory category name).feedback = jsTrim s)
    ∧ ((∀ s : String, jsOptGet category "feedback" ≠ some (Json.str s)) →
      (validateCategory category name).feedback = "Unable to evaluate " ++ name ++ ".") := by
  constructor
  · intro s hs
    unfold validateCategory
    simp only [hs]
  · intro hne
    unfold validateCategory
    cases hf : jsOptGet category "feedback" with
    | none => simp only [hf]
    | some v =>
      cases v with
      | str s => exact absurd hf (hne s)
      | null => simp only [hf]
      | bool b => simp only [hf]
      | num q => simp only [hf]
      | arr xs => simp only [hf]
      | obj fields => simp only [hf]

set_option maxRecDepth 100000 in
/-- C4 counterexample: the claim says every returned feedback string is
non-empty, with the unable-to-evaluate message substituted otherwise;
but for `c4Content`, whose ambiguity feedback is the whitespace-only
string " ", the code keeps the (string-typed) value and trims it to the
empty string, so the returned feedback is `""`. -/
theorem parseEvaluationResponse_emptyFeedback_counterexample :
    ¬ (∀ content : String, (parseEvaluationResponse content).ambiguity.feedback ≠ "") := by
  intro hall
  exact hall c4Content (by with_unfolding_all rfl)

/-- C4 amended: every result has all three categories present (by
construction of `EvaluationResult`), and for each category the feedback
is the model's feedback trimmed whenever the feedback field is present
and a string — even if it trims to the empty string — and the message
"Unable to evaluate <category>." exactly when the field is absent or
not a string. (For raw text that fails extraction or parsing the result
is the fixed default of `getDefaultEvaluation`, whose messages are also
non-empty.) -/
theorem parseEvaluationResponse_feedback_spec (content : String) (j : Json)
    (hj : extractedJson content = some j) :
    ((∀ s : String, jsOptGet (jsGetField j "ambiguity") "feedback" = some (Json.str s) →
        (parseEvaluationResponse content).ambiguity.feedback = jsTrim s)
      ∧ ((∀ s : String, jsOptGet (jsGetField j "ambiguity") "feedback" ≠ some (Json.str s)) →
        (parseEvaluationResponse content).ambiguity.feedback = "Unable to evaluate ambiguity."))
    ∧ ((∀ s : String, jsOptGet (jsGetField j "testability") "feedback" = some (Json.str s) →
        (parseEvaluationResponse content).testability.feedback = jsTrim s)
      ∧ ((∀ s : String, jsOptGet (jsGetField j "testability") "feedback" ≠ some (Json.str s)) →
        (parseEvaluationResponse content).testability.feedback =
          "Unable to evaluate testability."))
    ∧ ((∀ s : String, jsOptGet (jsGetField j "completeness") "feedback" = some (Json.str s) →
        (parseEvaluationResponse content).completeness.feedback = jsTrim s)
      ∧ ((∀ s : String, jsOptGet (jsGetField j "completeness") "feedback" ≠ some (Json.str s)) →
        (parseEvaluationResponse content).completeness.feedback =
          "Unable to evaluate completeness.")) := by
  rw [parseEvaluationResponse_unfold, hj]
  show ((∀ s : String, _) ∧ _) ∧ ((∀ s : String, _) ∧ _) ∧ ((∀ s : String, _) ∧ _)
  refine ⟨⟨?_, ?_⟩, ⟨?_, ?_⟩, ⟨?_, ?_⟩⟩
  · exact fun s hs => (validateCategory_feedback_cases (jsGetField j "ambiguity") "ambiguity").1 s hs
  · exact fun hne => (validateCategory_feedback_cases (jsGetField j "ambiguity") "ambiguity").2 hne
  · exact fun s hs =>
      (validateCategory_feedback_cases (jsGetField j "testability") "testability").1 s hs
  · exact fun hne =>
      (validateCategory_feedback_cases (jsGetField j "testability") "testability").2 hne
  · exact fun s hs =>
      (validateCategory_feedback_cases (jsGetField j "completeness") "completeness").1 s hs
  · exact fun hne =>
      (validateCategory_feedback_cases (jsGetField j "completeness") "completeness").2 hne

set_option maxRecDepth 100000 in
theorem parseEvaluationResponse_feedback_spec_witness :
    (parseEvaluationResponse c4WitnessContent).ambiguity.feedback = jsTrim "  solid  "
    ∧ (parseEvaluationResponse c4WitnessContent).testability.feedback =
      "Unable to evaluate testability."
    ∧ (parseEvaluationResponse c4WitnessContent).completeness.feedback =
      "Unable to evaluate completeness." := by
  have h := parseEvaluationResponse_feedback_spec c4WitnessContent
    (Json.obj
      [("ambiguity", Json.obj [("feedback", Json.str "  solid  ")]),
       ("testability", Json.obj []),
       ("completeness", Json.obj [("feedback", Json.num 7)])])
    (by with_unfolding_all rfl)
  refine ⟨h.1.1 "  solid  " rfl, h.2.1.2 ?_, h.2.2.2 ?_⟩
  · intro s hs
    exact Option.noConfusion hs
  · intro s hs
    exact Json.noConfusion (Option.some.inj hs)

set_option maxRecDepth 100000 in
/-- C9 counterexample: a request body shaped
`\x7b requirementText: s \x7d` with an in-range string does not pass
validation — the handler reads the field `requirement`, finds nothing,
and returns 400 without reaching the rate-limit check. -/
theorem handler_requirementText_counterexample :
    (handler c9Event defaultRateLimitConfig false 0 [] .ok .ok .ok (.ok "x")).statusCode = 400
    ∧ (handler c9Event defaultRateLimitConfig false 0 [] .ok .ok .ok (.ok "x")).trace = []
    ∧ jsonParse "\x7b\"requirementText\":\"The system shall respond to every query.\"\x7d" =
      some (Json.obj [("requirementText", Json.str "The system shall respond to every query.")])
    ∧ 10 ≤ utf16Length (jsTrim "The system shall respond to every query.")
    ∧ utf16Length (jsTrim "The system shall respond to every query.") ≤ 2000 := by
  refine ⟨?_, ?_, ?_, ?_, ?_⟩
  · with_unfolding_all rfl
  · with_unfolding_all rfl
  · with_unfolding_all rfl
  · decide
  · decide

/-- C9 amended: for every inbound request whose body is a JSON object
whose `requirement` field (the name the handler actually reads; the
spec's §6 calls it `requirementText`) is a string with trimmed UTF-16
length between 10 and 2000, input validation passes: the handler does
not return 400 and proceeds to the rate-limit check. -/
theorem handler_valid_requirement_passes (event : ApiEvent) (cfg : RateLimitConfig)
    (skip : Bool) (now : Int) (store : Store) (ci r1 r2 : Infra) (mr : Except Unit String)
    (bodyStr : String) (bodyJson : Json) (s : String)
    (hm : event.httpMethod ≠ "OPTIONS")
    (hb : event.body = some bodyStr)
    (hparse : jsonParse bodyStr = some bodyJson)
    (hfield : jsGetField bodyJson "requirement" = some (Json.str s))
    (hmin : 10 ≤ utf16Length (jsTrim s))
    (hmax2 : utf16Length (jsTrim s) ≤ 2000) :
    (handler event cfg skip now store ci r1 r2 mr).statusCode ≠ 400
    ∧ Effect.check ∈ (handler event cfg skip now store ci r1 r2 mr).trace := by
  have hbne : bodyStr ≠ "" := by
    intro h0
    subst h0
    rw [show jsonParse "" = none from rfl] at hparse
    cases hparse
  have hbody : parseRequestBody event.body = Except.ok bodyJson := by
    unfold parseRequestBody
    rw [hb]
    show (if bodyStr = "" then Except.ok (Json.obj []) else
      match jsonParse bodyStr with
      | some j => Except.ok j
      | none => Except.error ()) = Except.ok bodyJson
    rw [if_neg hbne, hparse]
  cases bodyJson with
  | null => simp [jsGetField] at hfield
  | bool b => simp [jsGetField] at hfield
  | num q => simp [jsGetField] at hfield
  | str t => simp [jsGetField] at hfield
  | arr xs => simp [jsGetField] at hfield
  | obj bfields =>
    have hs0 : s ≠ "" := by
      intro h0
      subst h0
      rw [show jsTrim "" = "" from rfl] at hmin
      rw [show utf16Length "" = 0 from rfl] at hmin
      omega
    have hfalsy : jsFalsy (Json.str s) = false := by
      simp [jsFalsy, hs0]
    unfold handler
    simp only [if_neg hm, hbody, hfield, hfalsy, Bool.false_eq_true, if_false]
    rw [if_neg (by omega : ¬ utf16Length (jsTrim s) < 10)]
    rw [if_neg (by omega : ¬ utf16Length (jsTrim s) > 2000)]
    cases hcr : checkRateLimit cfg (getClientIp event) skip now store ci with
    | true =>
      simp only [hcr, if_true]
      exact ⟨by omega, by simp⟩
    | false =>
      simp only [hcr, Bool.false_eq_true, if_false]
      cases mr with
      | error e => refine ⟨?_, ?_⟩ <;> simp
      | ok content => refine ⟨?_, ?_⟩ <;> simp

theorem handler_valid_requirement_passes_witness :
    (handler c9GoodEvent defaultRateLimitConfig false 0 [] .ok .ok .ok (.ok "x")).statusCode ≠ 400
    ∧ Effect.check ∈
      (handler c9GoodEvent defaultRateLimitConfig false 0 [] .ok .ok .ok (.ok "x")).trace :=
  handler_valid_requirement_passes c9GoodEvent defaultRateLimitConfig false 0 [] .ok .ok .ok
    (.ok "x") "\x7b\"requirement\":\"The system shall respond to every query.\"\x7d"
    (Json.obj [("requirement", Json.str "The system shall respond to every query.")])
    "The system shall respond to every query."
    (by decide) rfl (by with_unfolding_all rfl) rfl (by decide) (by decide)

theorem handler_trace_cases (event : ApiEvent) (cfg : RateLimitConfig) (skip : Bool)
    (now : Int) (store : Store) (ci r1 r2 : Infra) (mr : Except Unit String) :
    (handler event cfg skip now store ci r1 r2 mr).trace = [] ∨
    (handler event cfg skip now store ci r1 r2 mr).trace = [Effect.check] ∨
    (handler event cfg skip now store ci r1 r2 mr).trace =
      [Effect.check, Effect.record, Effect.model] := by
  unfold handler
  repeat' split
  all_goals try simp
  all_goals split_ifs
  all_goals simp

/-- C10: every input whose `requirement` field is a string with trimmed
UTF-16 length below 10 or above 2000 yields a 400 response with an
empty effect trace — no rate-limit recording, no model call (not even a
rate-limit check) — and, on every input whatsoever, if the model was
called then the trace is exactly check-then-record-then-model: the
model call happens only after the rate-limit check passed and the
record step was attempted. -/
theorem handler_validation_frame_and_ordering (event : ApiEvent) (cfg : RateLimitConfig)
    (skip : Bool) (now : Int) (store : Store) (ci r1 r2 : Infra) (mr : Except Unit String)
    (bodyJson : Json) (s : String) :
    ((event.httpMethod ≠ "OPTIONS" →
      parseRequestBody event.body = Except.ok bodyJson →
      jsGetField bodyJson "requirement" = some (Json.str s) →
      (utf16Length (jsTrim s) < 10 ∨ 2000 < utf16Length (jsTrim s)) →
      (handler event cfg skip now store ci r1 r2 mr).statusCode = 400 ∧
      (handler event cfg skip now store ci r1 r2 mr).trace = []) ∧
    (Effect.model ∈ (handler event cfg skip now store ci r1 r2 mr).trace →
      (handler event cfg skip now store ci r1 r2 mr).trace =
        [Effect.check, Effect.record, Effect.model])) := by
  constructor
  · intro hm hbody hfield hlen
    cases bodyJson with
    | null => simp [jsGetField] at hfield
    | bool b => simp [jsGetField] at hfield
    | num q => simp [jsGetField] at hfield
    | str t => simp [jsGetField] at hfield
    | arr xs => simp [jsGetField] at hfield
    | obj bfields =>
      unfold handler
      simp only [if_neg hm, hbody, hfield]
      by_cases hs0 : s = ""
      · subst hs0
        simp [jsFalsy]
      · have hfalsy : jsFalsy (Json.str s) = false := by simp [jsFalsy, hs0]
        simp only [hfalsy, Bool.false_eq_true, if_false]
        by_cases h10 : utf16Length (jsTrim s) < 10
        · rw [if_pos h10]
          exact ⟨rfl, rfl⟩
        · have h2000 : utf16Length (jsTrim s) > 2000 := by omega
          rw [if_neg h10, if_pos h2000]
          exact ⟨rfl, rfl⟩
  · intro hmem
    rcases handler_trace_cases event cfg skip now store ci r1 r2 mr with h | h | h
    · rw [h] at hmem
      cases hmem
    · rw [h] at hmem
      exact absurd hmem (by decide)
    · exact h

set_option maxRecDepth 100000 in
theorem handler_validation_frame_and_ordering_witness :
    ((handler c10ShortEvent defaultRateLimitConfig false 0 [] .ok .ok .ok (.ok "x")).statusCode
        = 400 ∧
      (handler c10ShortEvent defaultRateLimitConfig false 0 [] .ok .ok .ok (.ok "x")).trace = [])
    ∧ (handler c10GoodEvent defaultRateLimitConfig false 0 [] .ok .ok .ok (.ok "x")).trace =
      [Effect.check, Effect.record, Effect.model] := by
  constructor
  · exact (handler_validation_frame_and_ordering c10ShortEvent defaultRateLimitConfig false 0 []
      .ok .ok .ok (.ok "x") (Json.obj [("requirement", Json.str "short")]) "short").1
      (by decide) (by with_unfolding_all rfl) rfl (Or.inl (by decide))
  · exact (handler_validation_frame_and_ordering c10GoodEvent defaultRateLimitConfig false 0 []
      .ok .ok .ok (.ok "x") Json.null "").2
      (by with_unfolding_all decide)

end ReqEval
